import Mathlib

/-!
# Verification of the pgbouncer_exporter result-set-to-metric translation engine

A shallow embedding, in Lean 4, of the collector code of the
`pgbouncer_exporter` repository (file `collector.go`, latest revision, together
with the data model of `struct.go`), and proofs of the specification claims
about it.

Modelling conventions:
* Go strings and `[]byte` / `sql.RawBytes` values are byte sequences and are
  modelled as `List Nat` (`GoStr`), so that invalid UTF-8 content is
  representable exactly as in Go.
* Go `float64` is modelled as `GoFloat`: either NaN or an exact rational.
  The claims under verification depend on the dispatch structure of the
  conversion code (which branch fires, whether the scale factor is applied,
  NaN-ness and the ok flag), not on IEEE-754 rounding, so exact rational
  arithmetic is a faithful shallow model of them.
* `strconv.ParseFloat` is modelled by `goParseFloat`, a decimal parser
  covering the forms the probed system produces (optional sign, digits with
  an optional fraction part, optional decimal exponent).  The hexadecimal,
  `Inf` and `NaN` literal forms of the Go function are omitted; no theorem
  below depends on them.
* A `database/sql` result set is modelled by an environment record giving the
  outcome of each fallible step the code performs on it: the query itself,
  `rows.Columns()`, each `rows.Scan(...)` and the final `rows.Err()`.
* Metric emission on a channel is modelled as an ordered list of `Sample`
  values (the emission trace of one call).
* Go `map` iteration order is not deterministic; wherever the code ranges
  over a map, the model takes the iteration sequence as an explicit list
  parameter (an association list standing for the map), so statements can
  quantify over the admissible orders.
* Error values are modelled as `String` messages built in the same shape as
  the source's `fmt.Errorf` calls; only their identity and count matter to
  the claims, not their exact rendering.
-/

namespace PgbExporter

/-! ## Byte strings and UTF-8 validity -/

/-- A Go string / byte slice: a sequence of bytes. -/
abbrev GoStr := List Nat

/-- UTF-8 encoding of one Unicode code point (the encoding Lean string
literals are lowered through to obtain their Go byte content). -/
def encodeChar (c : Char) : List Nat :=
  let n := c.toNat
  if n < 0x80 then [n]
  else if n < 0x800 then [0xC0 + n / 64, 0x80 + n % 64]
  else if n < 0x10000 then [0xE0 + n / 4096, 0x80 + (n / 64) % 64, 0x80 + n % 64]
  else [0xF0 + n / 262144, 0x80 + (n / 4096) % 64, 0x80 + (n / 64) % 64, 0x80 + n % 64]

/-- The byte content of a Lean string literal, as a Go string. -/
def strBytes (s : String) : GoStr :=
  (s.data.map encodeChar).flatten

/-- Is `b` a UTF-8 continuation byte (`0x80..0xBF`)? -/
def isCont (b : Nat) : Bool := 0x80 ≤ b && b ≤ 0xBF

/-- Model of `unicode/utf8.ValidString`: does the byte sequence consist entirely of
well-formed UTF-8 encodings (no overlong forms, no surrogates, max U+10FFFF)? -/
def utf8Valid : List Nat → Bool
  | [] => true
  | b :: rest =>
    if b ≤ 0x7F then utf8Valid rest
    else if 0xC2 ≤ b && b ≤ 0xDF then
      match rest with
      | c1 :: r => isCont c1 && utf8Valid r
      | [] => false
    else if b = 0xE0 then
      match rest with
      | c1 :: c2 :: r => (0xA0 ≤ c1 && c1 ≤ 0xBF) && isCont c2 && utf8Valid r
      | _ => false
    else if (0xE1 ≤ b && b ≤ 0xEC) || b = 0xEE || b = 0xEF then
      match rest with
      | c1 :: c2 :: r => isCont c1 && isCont c2 && utf8Valid r
      | _ => false
    else if b = 0xED then
      match rest with
      | c1 :: c2 :: r => (0x80 ≤ c1 && c1 ≤ 0x9F) && isCont c2 && utf8Valid r
      | _ => false
    else if b = 0xF0 then
      match rest with
      | c1 :: c2 :: c3 :: r => (0x90 ≤ c1 && c1 ≤ 0xBF) && isCont c2 && isCont c3 && utf8Valid r
      | _ => false
    else if 0xF1 ≤ b && b ≤ 0xF3 then
      match rest with
      | c1 :: c2 :: c3 :: r => isCont c1 && isCont c2 && isCont c3 && utf8Valid r
      | _ => false
    else if b = 0xF4 then
      match rest with
      | c1 :: c2 :: c3 :: r => (0x80 ≤ c1 && c1 ≤ 0x8F) && isCont c2 && isCont c3 && utf8Valid r
      | _ => false
    else false

/-! ## Go float64 model -/

/-- A Go `float64`, as far as the collector code observes it: NaN or an exact
rational value. -/
inductive GoFloat where
  | nan : GoFloat
  | num : ℚ → GoFloat
deriving DecidableEq, Repr

/-- Multiplication of a float by a (rational) scale factor;
`NaN * f = NaN` as in IEEE arithmetic. -/
def gmul : GoFloat → ℚ → GoFloat
  | .nan, _ => .nan
  | .num q, f => .num (q * f)

/-! ## Decimal parsing (`strconv.ParseFloat`) -/

/-- Is `b` an ASCII digit byte? -/
def isDigit (b : Nat) : Bool := 0x30 ≤ b && b ≤ 0x39

/-- Value of a sequence of ASCII digit bytes read in base 10. -/
def digitsToNat (ds : List Nat) : Nat :=
  ds.foldl (fun a b => a * 10 + (b - 0x30)) 0

/-- Strip an optional leading `+` or `-` sign, returning (negative?, rest). -/
def stripSign (s : GoStr) : Bool × GoStr :=
  match s with
  | 0x2B :: r => (false, r)
  | 0x2D :: r => (true, r)
  | _ => (false, s)

/-- Model of `strconv.ParseFloat` on the byte content of a string, for the decimal
forms `[+-]digits[.digits][(e|E)[+-]digits]` (also `.digits` with no integer
part).  Returns `none` on any input outside this grammar.  The hexadecimal
and `Inf`/`NaN` literal forms accepted by the Go function are omitted; the
probed system never produces them and no claim depends on them. -/
def goParseFloat (s : GoStr) : Option ℚ :=
  let (neg, s1) := stripSign s
  let ip := s1.takeWhile isDigit
  let s2 := s1.dropWhile isDigit
  let (fp, s3) :=
    match s2 with
    | 0x2E :: r => (r.takeWhile isDigit, r.dropWhile isDigit)
    | _ => ([], s2)
  if ip.isEmpty && fp.isEmpty then none
  else
    let mant : ℚ := (digitsToNat (ip ++ fp) : ℚ) / ((10 : ℚ) ^ fp.length)
    let expPart : Option (Bool × Nat × GoStr) :=
      match s3 with
      | e :: r =>
        if e = 0x65 ∨ e = 0x45 then
          let (eneg, r1) := stripSign r
          let ed := r1.takeWhile isDigit
          let r2 := r1.dropWhile isDigit
          if ed.isEmpty then none else some (eneg, digitsToNat ed, r2)
        else some (false, 0, s3)
      | [] => some (false, 0, [])
    match expPart with
    | none => none
    | some (eneg, ev, rest) =>
      if rest.isEmpty then
        let scaled : ℚ := if eneg then mant / ((10 : ℚ) ^ ev) else mant * ((10 : ℚ) ^ ev)
        some (if neg then -scaled else scaled)
      else none

/-! ## Text rendering helpers (`strconv`, `fmt`) -/

/-- Model of `strconv.Itoa` / decimal rendering of an integer as bytes. -/
def itoa (n : ℤ) : GoStr := strBytes (toString n)

/-- Model of `fmt.Sprintf("%f", v)`: fixed-point with six fraction digits.  Rounding is
to nearest, ties away from zero; no claim depends on the tie-breaking rule. -/
def formatF (x : GoFloat) : GoStr :=
  match x with
  | .nan => strBytes "NaN"
  | .num q =>
    let sgn : GoStr := if q < 0 then strBytes "-" else []
    let scaled : ℤ := ⌊|q| * 1000000 + 1/2⌋
    let ipart := scaled / 1000000
    let fpart := (scaled % 1000000).toNat
    let fdigits := toString fpart
    let pad := String.mk (List.replicate (6 - fdigits.length) '0')
    sgn ++ itoa ipart ++ strBytes "." ++ strBytes (pad ++ fdigits)

/-- Model of `strconv.FormatBool`. -/
def formatBool (b : Bool) : GoStr :=
  strBytes (if b then "true" else "false")

/-! ## Dynamically-typed DB scalars and value coercion -/

/-- A dynamically-typed scalar as handed to the collector by `database/sql`:
the closed set of cases the source's type switches distinguish. -/
inductive DbValue where
  | intV : ℤ → DbValue          -- Go `int`
  | int64V : ℤ → DbValue        -- Go `int64`
  | float64V : GoFloat → DbValue
  | timeV : ℤ → DbValue         -- `time.Time`, identified by its Unix seconds
  | bytesV : GoStr → DbValue    -- `[]byte`
  | strV : GoStr → DbValue      -- `string` (raw byte content)
  | nullV : DbValue
  | otherV : String → DbValue   -- any other driver type (tagged)
deriving DecidableEq, Repr

/-- Model of `dbToFloat64` (collector.go): convert a DB scalar and a scale factor into
`(float64, ok)`.  Null maps to `(NaN, true)`; string and byte inputs that do
not parse map to `(NaN, false)`; timestamps ignore the factor. -/
def dbToFloat64 (t : DbValue) (factor : ℚ) : GoFloat × Bool :=
  match t with
  | .int64V v => (.num ((v : ℚ) * factor), true)
  | .float64V v => (gmul v factor, true)
  | .timeV v => (.num (v : ℚ), true)
  | .bytesV v =>
    match goParseFloat v with
    | some result => (.num (result * factor), true)
    | none => (.nan, false)
  | .strV v =>
    match goParseFloat v with
    | some result => (.num (result * factor), true)
    | none => (.nan, false)
  | .nullV => (.nan, true)
  | _ => (.nan, false)

/-! ## Prometheus model: descriptors, value types, samples -/

/-- A `prometheus.Desc`: fully-qualified metric name, help text and the
ordered variable-label names. -/
structure Desc where
  fqName : String
  help : String
  variableLabels : List String
deriving DecidableEq, Repr

/-- A `prometheus.ValueType`. -/
inductive VType where
  | gauge : VType
  | counter : VType
  | untyped : VType
deriving DecidableEq, Repr

/-- One metric sent on the collector channel
(`prometheus.MustNewConstMetric(desc, vtype, value, labelValues...)`). -/
structure Sample where
  desc : Desc
  vtype : VType
  value : GoFloat
  labelValues : List GoStr
deriving DecidableEq, Repr

/-- Model of `prometheus.BuildFQName`: joins the nonempty components with `_`. -/
def buildFQName (ns sub name : String) : String :=
  String.intercalate "_" (([ns, sub, name]).filter (fun s => s ≠ ""))

/-- The package-level `namespace` constant (`pgbouncer_exporter.go`). -/
def exporterNamespace : String := "pgbouncer"

/-- Model of `bouncerVersionDesc` (collector.go). -/
def bouncerVersionDesc : Desc :=
  ⟨buildFQName exporterNamespace "version" "info", "The pgbouncer version info", ["version"]⟩

/-- Model of `scrapeSuccessDesc` (collector.go). -/
def scrapeSuccessDesc : Desc :=
  ⟨buildFQName exporterNamespace "" "up", "The pgbouncer scrape succeeded", []⟩

/-- Model of `serverCountDescription` (collector.go). -/
def serverCountDescription : Desc :=
  ⟨buildFQName exporterNamespace "" "server_connections", "Server connections with state information",
    ["user", "database", "state", "addr", "close_needed"]⟩

/-- Model of `listsMap` (collector.go): the fixed descriptors for `SHOW LISTS` keys,
in source order. -/
def listsMap : List (String × Desc) :=
  [("databases", ⟨buildFQName exporterNamespace "" "databases", "Count of databases", []⟩),
   ("users", ⟨buildFQName exporterNamespace "" "users", "Count of users", []⟩),
   ("pools", ⟨buildFQName exporterNamespace "" "pools", "Count of pools", []⟩),
   ("free_clients", ⟨buildFQName exporterNamespace "" "free_clients", "Count of free clients", []⟩),
   ("used_clients", ⟨buildFQName exporterNamespace "" "used_clients", "Count of used clients", []⟩),
   ("login_clients", ⟨buildFQName exporterNamespace "" "login_clients", "Count of clients in login state", []⟩),
   ("free_servers", ⟨buildFQName exporterNamespace "" "free_servers", "Count of free servers", []⟩),
   ("used_servers", ⟨buildFQName exporterNamespace "" "used_servers", "Count of used servers", []⟩),
   ("dns_names", ⟨buildFQName exporterNamespace "" "cached_dns_names", "Count of DNS names in the cache", []⟩),
   ("dns_zones", ⟨buildFQName exporterNamespace "" "cached_dns_zones", "Count of DNS zones in the cache", []⟩),
   ("dns_queries", ⟨buildFQName exporterNamespace "" "in_flight_dns_queries", "Count of in-flight DNS queries", []⟩)]

/-- Model of `configMap` (collector.go): the fixed allow-list of `SHOW CONFIG` keys. -/
def configMap : List (String × Desc) :=
  [("max_client_conn",
    ⟨buildFQName exporterNamespace "config" "max_client_connections",
     "Config maximum number of client connections", []⟩),
   ("max_user_connections",
    ⟨buildFQName exporterNamespace "config" "max_user_connections",
     "Config maximum number of server connections per user", []⟩)]

/-! ## Schema registry data model (`struct.go`) -/

/-- Model of `columnUsage` (struct.go). -/
inductive ColumnUsage where
  | DISCARD : ColumnUsage
  | LABEL : ColumnUsage
  | COUNTER : ColumnUsage
  | GAUGE : ColumnUsage
  | MAPPEDMETRIC : ColumnUsage
  | DURATION : ColumnUsage
deriving DecidableEq, Repr

/-- A semantic version (`semver.Version`, release part only; pre-release tags
are not used by the registry). -/
structure Version where
  major : Nat
  minor : Nat
  patch : Nat
deriving DecidableEq, Repr

/-- Lexicographic semver comparison, strict. -/
def Version.lt (a b : Version) : Prop :=
  a.major < b.major ∨
    (a.major = b.major ∧ (a.minor < b.minor ∨ (a.minor = b.minor ∧ a.patch < b.patch)))

instance (a b : Version) : Decidable (Version.lt a b) := by
  unfold Version.lt; infer_instance

/-- Model of `a.GTE(b)` of the semver package, i.e. `¬ a.lt b` for release versions. -/
def Version.ge (a b : Version) : Prop := ¬ Version.lt a b

instance (a b : Version) : Decidable (Version.ge a b) := by
  unfold Version.ge; infer_instance

/-- Model of `ColumnMapping` (struct.go). -/
structure ColumnMapping where
  usage : ColumnUsage
  metric : String
  factor : ℚ
  description : String
  minVersion : Version := ⟨0, 0, 0⟩

/-- Model of `MetricMap` (struct.go): the compiled per-column descriptor. -/
structure MetricMap where
  discard : Bool := false
  vtype : VType
  desc : Desc
  conversion : DbValue → GoFloat × Bool

/-- Model of `MetricMapNamespace` (struct.go): compiled mappings plus shared labels. -/
structure MetricMapNamespace where
  columnMappings : List (String × MetricMap)
  labels : List String

/-- Association-list lookup (a Go `map[string]V` read). -/
def alookup {β : Type} (k : String) : List (String × β) → Option β
  | [] => none
  | (k', v) :: t => if k' = k then some v else alookup k t

/-! ## Descriptor compilation -/

/-- The per-result-set body of `makeDescMap` (collector.go, latest
revision): collect the label-column names, then build one coercion-bound
descriptor per `COUNTER`/`GAUGE` entry; every other usage is dropped from
the compiled map. -/
def compileNs (ns metricNamespace : String)
    (mappings : List (String × ColumnMapping)) : MetricMapNamespace :=
  let labels := (mappings.filter (fun q => q.2.usage = .LABEL)).map (fun q => q.1)
  let thisMap := mappings.filterMap fun q =>
    let columnName := q.1
    let cm := q.2
    match cm.usage with
    | .COUNTER => some (columnName,
        { vtype := .counter,
          desc := ⟨ns ++ "_" ++ metricNamespace ++ "_" ++ cm.metric, cm.description, labels⟩,
          conversion := fun i => dbToFloat64 i cm.factor })
    | .GAUGE => some (columnName,
        { vtype := .gauge,
          desc := ⟨ns ++ "_" ++ metricNamespace ++ "_" ++ cm.metric, cm.description, labels⟩,
          conversion := fun i => dbToFloat64 i cm.factor })
    | _ => none
  ⟨thisMap, labels⟩

/-- Model of `makeDescMap` (collector.go, latest revision): compile the registry into
per-result-set descriptor maps.  The association lists stand for Go maps; the
list order is the map's iteration order. -/
def makeDescMap (metricMaps : List (String × List (String × ColumnMapping)))
    (ns : String) : List (String × MetricMapNamespace) :=
  metricMaps.map fun p => (p.1, compileNs ns p.1 p.2)

/-- Modelled from the spec: the version-gated descriptor compiler.  The
version-gated `makeDescMap` of this repository is not among the provided
source files — only its test (`TestMakeDescMap`, which calls
`makeDescMap(metricMaps, "foo", logger, currentVersion)`) and the
`minVersion` field of `ColumnMapping` in `struct.go` are.  Per §4.3 of the
spec: a first pass collects entries with `usage == Label` whose
`minVersion <= currentVersion` into the label-name list; a second pass
builds a descriptor for every `Counter`/`Gauge` entry, again subject to
`minVersion <= currentVersion`; all other entries are excluded. -/
def compileNsVersioned (ns metricNamespace : String) (currentVersion : Version)
    (mappings : List (String × ColumnMapping)) : MetricMapNamespace :=
  let labels := (mappings.filter
    (fun q => q.2.usage = .LABEL ∧ Version.ge currentVersion q.2.minVersion)).map (fun q => q.1)
  let thisMap := mappings.filterMap fun q =>
    let columnName := q.1
    let cm := q.2
    if Version.ge currentVersion cm.minVersion then
      match cm.usage with
      | .COUNTER => some (columnName,
          { vtype := .counter,
            desc := ⟨ns ++ "_" ++ metricNamespace ++ "_" ++ cm.metric, cm.description, labels⟩,
            conversion := fun i => dbToFloat64 i cm.factor })
      | .GAUGE => some (columnName,
          { vtype := .gauge,
            desc := ⟨ns ++ "_" ++ metricNamespace ++ "_" ++ cm.metric, cm.description, labels⟩,
            conversion := fun i => dbToFloat64 i cm.factor })
      | _ => none
    else none
  ⟨thisMap, labels⟩

/-- Modelled from the spec: the full version-gated descriptor compiler. -/
def makeDescMapVersioned (metricMaps : List (String × List (String × ColumnMapping)))
    (ns : String) (currentVersion : Version) : List (String × MetricMapNamespace) :=
  metricMaps.map fun p => (p.1, compileNsVersioned ns p.1 currentVersion p.2)

/-- Model of `metricMaps` (collector.go, latest revision): the static schema registry,
in source order. -/
def pgbMetricMaps : List (String × List (String × ColumnMapping)) :=
  [("databases",
    [("name", ⟨.LABEL, "N/A", 1, "N/A", ⟨0,0,0⟩⟩),
     ("host", ⟨.LABEL, "N/A", 1, "N/A", ⟨0,0,0⟩⟩),
     ("port", ⟨.LABEL, "N/A", 1, "N/A", ⟨0,0,0⟩⟩),
     ("database", ⟨.LABEL, "N/A", 1, "N/A", ⟨0,0,0⟩⟩),
     ("force_user", ⟨.LABEL, "N/A", 1, "N/A", ⟨0,0,0⟩⟩),
     ("pool_size", ⟨.GAUGE, "pool_size", 1, "Maximum number of server connections", ⟨0,0,0⟩⟩),
     ("reserve_pool", ⟨.GAUGE, "reserve_pool", 1, "Maximum number of additional connections for this database", ⟨0,0,0⟩⟩),
     ("pool_mode", ⟨.LABEL, "N/A", 1, "N/A", ⟨0,0,0⟩⟩),
     ("max_connections", ⟨.GAUGE, "max_connections", 1, "Maximum number of allowed connections for this database", ⟨0,0,0⟩⟩),
     ("current_connections", ⟨.GAUGE, "current_connections", 1, "Current number of connections for this database", ⟨0,0,0⟩⟩),
     ("paused", ⟨.GAUGE, "paused", 1, "1 if this database is currently paused, else 0", ⟨0,0,0⟩⟩),
     ("disabled", ⟨.GAUGE, "disabled", 1, "1 if this database is currently disabled, else 0", ⟨0,0,0⟩⟩)]),
   ("stats",
    [("database", ⟨.LABEL, "N/A", 1, "N/A", ⟨0,0,0⟩⟩),
     ("total_query_count", ⟨.COUNTER, "queries_pooled_total", 1, "Total number of SQL queries pooled", ⟨0,0,0⟩⟩),
     ("total_query_time", ⟨.COUNTER, "queries_duration_seconds_total", 1/1000000, "Total number of seconds spent by pgbouncer when actively connected to PostgreSQL, executing queries", ⟨0,0,0⟩⟩),
     ("total_received", ⟨.COUNTER, "received_bytes_total", 1, "Total volume in bytes of network traffic received by pgbouncer, shown as bytes", ⟨0,0,0⟩⟩),
     ("total_requests", ⟨.COUNTER, "queries_total", 1, "Total number of SQL requests pooled by pgbouncer, shown as requests", ⟨0,0,0⟩⟩),
     ("total_sent", ⟨.COUNTER, "sent_bytes_total", 1, "Total volume in bytes of network traffic sent by pgbouncer, shown as bytes", ⟨0,0,0⟩⟩),
     ("total_wait_time", ⟨.COUNTER, "client_wait_seconds_total", 1/1000000, "Time spent by clients waiting for a server in seconds", ⟨0,0,0⟩⟩),
     ("total_xact_count", ⟨.COUNTER, "sql_transactions_pooled_total", 1, "Total number of SQL transactions pooled", ⟨0,0,0⟩⟩),
     ("total_xact_time", ⟨.COUNTER, "server_in_transaction_seconds_total", 1/1000000, "Total number of seconds spent by pgbouncer when connected to PostgreSQL in a transaction, either idle in transaction or executing queries", ⟨0,0,0⟩⟩)]),
   ("pools",
    [("database", ⟨.LABEL, "N/A", 1, "N/A", ⟨0,0,0⟩⟩),
     ("user", ⟨.LABEL, "N/A", 1, "N/A", ⟨0,0,0⟩⟩),
     ("cl_active", ⟨.GAUGE, "client_active_connections", 1, "Client connections linked to server connection and able to process queries, shown as connection", ⟨0,0,0⟩⟩),
     ("cl_active_cancel_req", ⟨.GAUGE, "client_active_cancel_connections", 1, "Client connections that have forwarded query cancellations to the server and are waiting for the server response", ⟨0,0,0⟩⟩),
     ("cl_waiting", ⟨.GAUGE, "client_waiting_connections", 1, "Client connections waiting on a server connection, shown as connection", ⟨0,0,0⟩⟩),
     ("cl_waiting_cancel_req", ⟨.GAUGE, "client_waiting_cancel_connections", 1, "Client connections that have not forwarded query cancellations to the server yet", ⟨0,0,0⟩⟩),
     ("sv_active", ⟨.GAUGE, "server_active_connections", 1, "Server connections linked to a client connection, shown as connection", ⟨0,0,0⟩⟩),
     ("sv_active_cancel", ⟨.GAUGE, "server_active_cancel_connections", 1, "Server connections that are currently forwarding a cancel request.", ⟨0,0,0⟩⟩),
     ("sv_being_canceled", ⟨.GAUGE, "server_being_canceled_connections", 1, "Servers that normally could become idle but are waiting to do so until all in-flight cancel requests have completed that were sent to cancel a query on this server.", ⟨0,0,0⟩⟩),
     ("sv_idle", ⟨.GAUGE, "server_idle_connections", 1, "Server connections idle and ready for a client query, shown as connection", ⟨0,0,0⟩⟩),
     ("sv_used", ⟨.GAUGE, "server_used_connections", 1, "Server connections idle more than server_check_delay, needing server_check_query, shown as connection", ⟨0,0,0⟩⟩),
     ("sv_tested", ⟨.GAUGE, "server_testing_connections", 1, "Server connections currently running either server_reset_query or server_check_query, shown as connection", ⟨0,0,0⟩⟩),
     ("sv_login", ⟨.GAUGE, "server_login_connections", 1, "Server connections currently in the process of logging in, shown as connection", ⟨0,0,0⟩⟩),
     ("maxwait", ⟨.GAUGE, "client_maxwait_seconds", 1, "Age of oldest unserved client connection, shown as second", ⟨0,0,0⟩⟩)])]

/-! ## The generic result-set collector (`queryNamespaceMapping`) -/

/-- The environment of one generic result-set query: the outcome of every
fallible step `database/sql` performs for it. -/
structure NsResult where
  queryErr : Option String
  colsErr : Option String
  columns : List String
  rows : List (Except String (List DbValue))
  iterErr : Option String

/-- The outcome of one generic result-set collection: the emission trace, the
non-fatal error list and the fatal error, mirroring the
`([]error, error)` return of `queryNamespaceMapping` together with the
metrics already sent on the channel. -/
structure CollectR where
  trace : List Sample
  nonfatal : List String
  fatal : Option String
deriving Repr

/-- The type-switch body resolving one label cell from a matching column
(`queryNamespaceMapping`, label loop): renders the scalar as label text, then
validates UTF-8; an unhandled type or invalid encoding yields the
`"<invalid>"` sentinel and one non-fatal error, and an unhandled type skips
the UTF-8 check (`continue`). -/
def labelCell (columnName ns : String) (d : DbValue) : GoStr × List String :=
  let gate : GoStr → GoStr × List String := fun v =>
    if utf8Valid v then (v, [])
    else (strBytes "<invalid>",
      ["column " ++ columnName ++ " in " ++ ns ++ " has an invalid UTF-8 for a label"])
  match d with
  | .intV n => gate (itoa n)
  | .int64V n => gate (itoa n)
  | .float64V x => gate (formatF x)
  | .strV bs => gate bs
  | .nullV => gate []
  | _ => (strBytes "<invalid>",
      ["column " ++ columnName ++ " in " ++ ns ++ " has an unhandled type for label"])

/-- Resolve one label: scan every result column; each column whose name
matches the label overwrites the cell (initially the empty string) and may
append non-fatal errors. -/
def resolveOneLabel (columns : List String) (label : String) (rowData : List DbValue)
    (ns : String) : GoStr × List String :=
  columns.enum.foldl
    (fun acc p =>
      if p.2 = label then
        let r := labelCell p.2 ns (rowData.getD p.1 .nullV)
        (r.1, acc.2 ++ r.2)
      else acc)
    ([], [])

/-- Resolve all label values for one row, in label-list order, accumulating
the non-fatal errors in encounter order. -/
def resolveLabels (columns : List String) (labels : List String) (rowData : List DbValue)
    (ns : String) : List GoStr × List String :=
  labels.foldl
    (fun acc label =>
      let r := resolveOneLabel columns label rowData ns
      (acc.1 ++ [r.1], acc.2 ++ r.2))
    ([], [])

/-- The value loop of `queryNamespaceMapping`: for every result column with a
compiled mapping, skip it if discarded, apply the bound coercion, append one
non-fatal error and skip the column on coercion failure, and emit one sample
carrying the row's resolved label values on success. -/
def emitValues (columns : List String) (mapping : MetricMapNamespace)
    (rowData : List DbValue) (labelValues : List GoStr) (ns : String) :
    List Sample × List String :=
  columns.enum.foldl
    (fun acc p =>
      match alookup p.2 mapping.columnMappings with
      | some mm =>
        if mm.discard then acc
        else
          let r := mm.conversion (rowData.getD p.1 .nullV)
          if r.2 then
            (acc.1 ++ [⟨mm.desc, mm.vtype, r.1, labelValues⟩], acc.2)
          else
            (acc.1, acc.2 ++ ["unexpected error parsing namespace: " ++ ns ++ ", column: " ++ p.2])
      | none => acc)
    ([], [])

/-- The row loop of `queryNamespaceMapping`: a structural scan failure aborts
the result-set with a fatal error (metrics already emitted stay emitted, the
non-fatal list is reset to the empty list the source returns); otherwise the
row's labels are resolved and its value columns emitted. -/
def nsRowsLoop (columns : List String) (mapping : MetricMapNamespace) (ns : String) :
    List (Except String (List DbValue)) → List Sample → List String → CollectR
  | [], samples, nonfatal => ⟨samples, nonfatal, none⟩
  | .error e :: _, samples, _ =>
    ⟨samples, [], some ("error retrieving rows: " ++ ns ++ ", error: " ++ e)⟩
  | .ok rowData :: rest, samples, nonfatal =>
    let lr := resolveLabels columns mapping.labels rowData ns
    let vr := emitValues columns mapping rowData lr.1 ns
    nsRowsLoop columns mapping ns rest (samples ++ vr.1) (nonfatal ++ lr.2 ++ vr.2)

/-- Model of `queryNamespaceMapping` (collector.go, latest revision): run one generic
result-set collection.  A failing query or unreadable column list is fatal;
rows are then scanned in order; after the last row, a row-iteration error is
appended to the non-fatal list. -/
def queryNamespaceMapping (res : NsResult) (ns : String) (mapping : MetricMapNamespace) :
    CollectR :=
  match res.queryErr with
  | some e => ⟨[], [], some ("error running query on database: " ++ ns ++ ", error: " ++ e)⟩
  | none =>
    match res.colsErr with
    | some e => ⟨[], [], some ("error retrieving column list for: " ++ ns ++ ", error: " ++ e)⟩
    | none =>
      let r := nsRowsLoop res.columns mapping ns res.rows [] []
      match r.fatal with
      | some _ => r
      | none =>
        match res.iterErr with
        | some e =>
          ⟨r.trace, r.nonfatal ++ ["Failed to consume all rows due to: " ++ e], none⟩
        | none => r

/-- Model of `queryNamespaceMappings` (collector.go): run every configured result-set,
in the given map-iteration order, collecting the per-result-set fatal errors
into the error map (an association list in insertion order). -/
def queryNamespaceMappings (envs : String → NsResult)
    (metricMap : List (String × MetricMapNamespace)) :
    List Sample × List (String × String) :=
  metricMap.foldl
    (fun acc p =>
      let r := queryNamespaceMapping (envs p.1) p.1 p.2
      (acc.1 ++ r.trace,
       acc.2 ++ (match r.fatal with | some e => [(p.1, e)] | none => [])))
    ([], [])

/-! ## `queryVersion` -/

/-- Environment of the `SHOW VERSION;` query.  Each row scans one string. -/
structure VersionEnv where
  queryErr : Option String
  colsErr : Option String
  columns : List String
  rows : List (Except String GoStr)

/-- Row loop of `queryVersion`: a scan error is returned as the error (rows
already emitted stay emitted); each row emits one version-info gauge. -/
def versionRowsLoop : List (Except String GoStr) → List Sample → List Sample × Option String
  | [], s => (s, none)
  | .error e :: _, s => (s, some e)
  | .ok v :: rest, s =>
    versionRowsLoop rest (s ++ [⟨bouncerVersionDesc, .gauge, .num 1, [v]⟩])

/-- Model of `queryVersion` (collector.go): gather the pgbouncer version info.  The
column list must be exactly `["version"]`. -/
def queryVersion (env : VersionEnv) : List Sample × Option String :=
  match env.queryErr with
  | some e => ([], some ("error getting pgbouncer version: " ++ e))
  | none =>
    match env.colsErr with
    | some e => ([], some ("error retrieving column list for version: " ++ e))
    | none =>
      if env.columns ≠ ["version"] then
        ([], some "show version didn't return version column")
      else versionRowsLoop env.rows []

/-! ## `queryShowLists` -/

/-- Environment of the `SHOW LISTS;` query: rows are `(list, items)` pairs,
the name scanned into a Go string and the count into raw bytes. -/
structure ListsEnv where
  queryErr : Option String
  colsErr : Option String
  columns : List String
  rows : List (Except String (GoStr × GoStr))

/-- Find the fixed descriptor for a `SHOW LISTS` key. -/
def listsFind (l : GoStr) : Option Desc :=
  (listsMap.find? (fun p => strBytes p.1 = l)).map (fun p => p.2)

/-- Row loop of `queryShowLists`: scan errors and value-parse failures are
fatal (emitted samples stay); recognized names emit one unlabeled gauge,
unrecognized names are dropped. -/
def listsRowsLoop : List (Except String (GoStr × GoStr)) → List Sample →
    List Sample × Option String
  | [], s => (s, none)
  | .error e :: _, s => (s, some ("error retrieving SHOW LISTS rows: " ++ e))
  | .ok row :: rest, s =>
    match goParseFloat row.2 with
    | none => (s, some ("error parsing SHOW LISTS column: " ++ toString row.1))
    | some value =>
      match listsFind row.1 with
      | some metric => listsRowsLoop rest (s ++ [⟨metric, .gauge, .num value, []⟩])
      | none => listsRowsLoop rest s

/-- Model of `queryShowLists` (collector.go): the key/value list collector.  The
column list must have been read without error and have exactly 2 columns. -/
def queryShowLists (env : ListsEnv) : List Sample × Option String :=
  match env.queryErr with
  | some e => ([], some ("error running SHOW LISTS on database: " ++ e))
  | none =>
    if env.colsErr.isSome ∨ env.columns.length ≠ 2 then
      ([], some "error retrieving columns list from SHOW LISTS")
    else listsRowsLoop env.rows []

/-! ## `queryShowConfig` -/

/-- One `SHOW CONFIG` row: the key (scanned into a Go string) and the value
(raw bytes).  The default-value and changeable columns are scanned by the
source but never read, so the model omits their content. -/
structure ConfigRow where
  key : GoStr
  value : GoStr

/-- Environment of the `SHOW CONFIG;` query. -/
structure ConfigEnv where
  queryErr : Option String
  colsErr : Option String
  columns : List String
  rows : List (Except String ConfigRow)

/-- Is the key in the fixed allow-list (`exposedConfig`, built from the keys
of `configMap`)? -/
def exposedConfig (k : GoStr) : Bool :=
  (configMap.find? (fun p => strBytes p.1 = k)).isSome

/-- Find the allow-list descriptor for a config key. -/
def configFind (k : GoStr) : Option Desc :=
  (configMap.find? (fun p => strBytes p.1 = k)).map (fun p => p.2)

/-- Row loop of `queryShowConfig`: rows scan per the observed column count
(3 or 4; any other count is a fatal error raised at the first row); keys not
in the allow-list are skipped before parsing; a value-parse failure of an
allow-listed key is fatal. -/
def configRowsLoop (numColumns : Nat) : List (Except String ConfigRow) → List Sample →
    List Sample × Option String
  | [], s => (s, none)
  | row :: rest, s =>
    if numColumns = 3 ∨ numColumns = 4 then
      match row with
      | .error e => (s, some ("error retrieving SHOW CONFIG rows: " ++ e))
      | .ok r =>
        if exposedConfig r.key then
          match goParseFloat r.value with
          | none => (s, some ("error parsing SHOW CONFIG column: " ++ toString r.key))
          | some value =>
            match configFind r.key with
            | some metric => configRowsLoop numColumns rest (s ++ [⟨metric, .gauge, .num value, []⟩])
            | none => configRowsLoop numColumns rest s
        else configRowsLoop numColumns rest s
    else (s, some ("invalid number of SHOW CONFIG  columns: " ++ toString numColumns))

/-- Model of `queryShowConfig` (collector.go): the allow-listed config collector. -/
def queryShowConfig (env : ConfigEnv) : List Sample × Option String :=
  match env.queryErr with
  | some e => ([], some ("error running SHOW CONFIG on database: " ++ e))
  | none =>
    match env.colsErr with
    | some e => ([], some ("error retrieving columns list from SHOW CONFIG: " ++ e))
    | none => configRowsLoop env.columns.length env.rows []

/-! ## `queryShowServers` -/

/-- The composite grouping key of `queryShowServers` (`counterKey`). -/
structure ServerKey where
  user : GoStr
  database : GoStr
  state : GoStr
  addr : GoStr
  port : ℤ
  closeNeeded : ℤ
deriving DecidableEq, Repr

/-- The zero value of `counterKey`'s fields, in force before any row has been
scanned. -/
def zeroServerKey : ServerKey := ⟨[], [], [], [], 0, 0⟩

/-- Environment of the `SHOW SERVERS;` query.  Each well-scanned row carries
the six fields the grouping key reads; the remaining scanned columns are
never read by the source. -/
structure ServersEnv where
  queryErr : Option String
  colsErr : Option String
  columns : List String
  rows : List (Except String ServerKey)

/-- Model of `counters[ck]++`: increment an association-list tally, inserting a new
key at the end on first sight. -/
def bump : List (ServerKey × Nat) → ServerKey → List (ServerKey × Nat)
  | [], k => [(k, 1)]
  | (k', n) :: t, k => if k' = k then (k', n + 1) :: t else (k', n) :: bump t k

/-- The straightforward tally of a key list, used to specify the row loop. -/
def tally (l : List ServerKey) : List (ServerKey × Nat) :=
  l.foldl bump []

/-- Row loop of `queryShowServers`: with 19 or 20 result columns each row is
scanned and tallied; with any other column count the scan is skipped and the
variables keep their previous values (the zero value at first), which are
tallied instead; a scan error is fatal. -/
def serversRowsLoop (numColumns : Nat) :
    List (Except String ServerKey) → ServerKey → List (ServerKey × Nat) →
    List (ServerKey × Nat) × Option String
  | [], _, counters => (counters, none)
  | row :: rest, cur, counters =>
    if numColumns = 20 ∨ numColumns = 19 then
      match row with
      | .error e => (counters, some ("error retrieving SHOW SERVERS rows: " ++ e))
      | .ok k => serversRowsLoop numColumns rest k (bump counters k)
    else serversRowsLoop numColumns rest cur (bump counters cur)

/-- The gauge sample emitted for one tally entry: labeled by user, database,
state, the composed `addr_port` text, and the textual close-needed flag. -/
def serverSample (p : ServerKey × Nat) : Sample :=
  ⟨serverCountDescription, .gauge, .num (p.2 : ℚ),
   [p.1.user, p.1.database, p.1.state,
    p.1.addr ++ strBytes "_" ++ itoa p.1.port,
    formatBool (p.1.closeNeeded = 1)]⟩

/-- Model of `queryShowServers` (collector.go): group the connection rows by the
composite key, then — only after consuming all rows — emit one gauge per
distinct group with the group's count.  The emission order over the Go map
`counters` is modelled as first-insertion order (one admissible iteration
order); no claim settled below depends on it. -/
def queryShowServers (env : ServersEnv) : List Sample × Option String :=
  match env.queryErr with
  | some e => ([], some ("error running SHOW SERVERS on database: " ++ e))
  | none =>
    match env.colsErr with
    | some e => ([], some ("error retrieving columns list from SHOW CONFIG: " ++ e))
    | none =>
      let r := serversRowsLoop env.columns.length env.rows zeroServerKey []
      match r.2 with
      | some e => (r.1.map serverSample, some e)
      | none => (r.1.map serverSample, none)

/-! ## The scrape orchestrator (`Collect`) -/

/-- The environment of one full collection cycle. -/
structure CollectEnv where
  version : VersionEnv
  lists : ListsEnv
  config : ConfigEnv
  servers : ServersEnv
  ns : String → NsResult

/-- The liveness value computed by `Collect`: 1.0 downgraded to 0.0 by any
stage failure, by a nonempty fatal-error map, or by the fatal-error map
having the same length as the configured namespace map. -/
def collectUp (env : CollectEnv) (metricMap : List (String × MetricMapNamespace)) : ℚ :=
  if (queryVersion env.version).2.isSome
    ∨ (queryShowLists env.lists).2.isSome
    ∨ (queryShowConfig env.config).2.isSome
    ∨ (queryShowServers env.servers).2.isSome
    ∨ 0 < (queryNamespaceMappings env.ns metricMap).2.length
    ∨ (queryNamespaceMappings env.ns metricMap).2.length = metricMap.length
  then 0 else 1

/-- Model of `Collect` (collector.go): one collection cycle.  The stages run strictly
in sequence — version, lists, config, servers, then every generic result-set
in the given map-iteration order — and the liveness sample is sent last. -/
def Collect (env : CollectEnv) (metricMap : List (String × MetricMapNamespace)) :
    List Sample :=
  (queryVersion env.version).1
    ++ (queryShowLists env.lists).1
    ++ (queryShowConfig env.config).1
    ++ (queryShowServers env.servers).1
    ++ (queryNamespaceMappings env.ns metricMap).1
    ++ [⟨scrapeSuccessDesc, .gauge, .num (collectUp env metricMap), []⟩]

/-! ## Claim C1 -/

/-- C1: For every scalar input `v` and scale factor `f`, `dbToFloat64`
returns `(float64(v) * f, true)` for native int64 and float64 inputs; the
Unix epoch seconds with `ok = true` and the factor not applied for
timestamps; `(parsed * f, true)` for string or byte-slice inputs whose
decoded text parses as a float and `(NaN, false)` when the parse fails;
`(NaN, true)` for null; and `(NaN, false)` for any other input type. -/
theorem dbToFloat64_spec (f : ℚ) :
    (∀ n : ℤ, dbToFloat64 (.int64V n) f = (.num ((n : ℚ) * f), true)) ∧
    (∀ x : GoFloat, dbToFloat64 (.float64V x) f = (gmul x f, true)) ∧
    (∀ u : ℤ, dbToFloat64 (.timeV u) f = (.num (u : ℚ), true)) ∧
    (∀ (s : GoStr) (r : ℚ), goParseFloat s = some r →
      dbToFloat64 (.strV s) f = (.num (r * f), true) ∧
      dbToFloat64 (.bytesV s) f = (.num (r * f), true)) ∧
    (∀ s : GoStr, goParseFloat s = none →
      dbToFloat64 (.strV s) f = (.nan, false) ∧
      dbToFloat64 (.bytesV s) f = (.nan, false)) ∧
    dbToFloat64 .nullV f = (.nan, true) ∧
    (∀ n : ℤ, dbToFloat64 (.intV n) f = (.nan, false)) ∧
    (∀ tag : String, dbToFloat64 (.otherV tag) f = (.nan, false)) := by
  refine ⟨fun n => rfl, fun x => rfl, fun u => rfl, ?_, ?_, rfl, fun n => rfl, fun tag => rfl⟩
  · intro s r h
    constructor <;> simp [dbToFloat64, h]
  · intro s h
    constructor <;> simp [dbToFloat64, h]

/-- C1 witness: the claim's clauses at concrete inputs. -/
theorem dbToFloat64_spec_witness :
    dbToFloat64 (.int64V 3) 2 = (.num 6, true) ∧
    dbToFloat64 (.timeV 100) 2 = (.num 100, true) ∧
    dbToFloat64 (.strV (strBytes "2.5")) 2 = (.num 5, true) ∧
    dbToFloat64 (.strV (strBytes "md5")) 2 = (.nan, false) ∧
    dbToFloat64 .nullV 2 = (.nan, true) := by
  have h := dbToFloat64_spec 2
  refine ⟨by have := h.1 3; norm_num at this; exact this,
    by simpa using h.2.2.1 100, ?_, ?_, h.2.2.2.2.2.1⟩
  · have hp : goParseFloat (strBytes "2.5") = some (5 / 2) := by
      have h1 : strBytes "2.5" = [0x32, 0x2E, 0x35] := rfl
      rw [h1]
      norm_num [goParseFloat, stripSign, digitsToNat, isDigit]
    have := (h.2.2.2.1 (strBytes "2.5") (5 / 2) hp).1
    norm_num at this
    exact this
  · have hp : goParseFloat (strBytes "md5") = none := by
      have h1 : strBytes "md5" = [0x6D, 0x64, 0x35] := rfl
      rw [h1]
      norm_num [goParseFloat, stripSign, digitsToNat, isDigit]
    exact (h.2.2.2.2.1 (strBytes "md5") hp).1

/-! ## Structure of `queryNamespaceMappings` and `Collect` -/

/-- Unfolding the fold of `queryNamespaceMappings` over an arbitrary
accumulator. -/
theorem queryNamespaceMappings_fold (envs : String → NsResult)
    (mm : List (String × MetricMapNamespace)) (acc1 : List Sample)
    (acc2 : List (String × String)) :
    mm.foldl
      (fun acc p =>
        let r := queryNamespaceMapping (envs p.1) p.1 p.2
        (acc.1 ++ r.trace,
         acc.2 ++ (match r.fatal with | some e => [(p.1, e)] | none => [])))
      (acc1, acc2) =
    (acc1 ++ (mm.map (fun p => (queryNamespaceMapping (envs p.1) p.1 p.2).trace)).flatten,
     acc2 ++ mm.filterMap
       (fun p => ((queryNamespaceMapping (envs p.1) p.1 p.2).fatal).map (fun e => (p.1, e)))) := by
  induction mm generalizing acc1 acc2 with
  | nil => simp
  | cons hd tl ih =>
    simp only [List.foldl_cons, List.map_cons, List.flatten_cons, List.filterMap_cons]
    rw [ih]
    cases hfa : (queryNamespaceMapping (envs hd.1) hd.1 hd.2).fatal <;>
      simp [hfa, List.append_assoc]

/-- The collector fan-out `queryNamespaceMappings` runs every configured result-set in iteration
order: the trace is the concatenation of the per-result-set traces and the
error map collects exactly the fatal outcomes, in order. -/
theorem queryNamespaceMappings_spec (envs : String → NsResult)
    (mm : List (String × MetricMapNamespace)) :
    queryNamespaceMappings envs mm =
      ((mm.map (fun p => (queryNamespaceMapping (envs p.1) p.1 p.2).trace)).flatten,
       mm.filterMap
         (fun p => ((queryNamespaceMapping (envs p.1) p.1 p.2).fatal).map (fun e => (p.1, e)))) := by
  have h := queryNamespaceMappings_fold envs mm [] []
  simpa [queryNamespaceMappings] using h

/-! ## Claim C9 -/

/-- C9: With an empty configured namespace map, `Collect` emits the liveness
sample with value 0 even when the version, list, config and connection-state
queries all succeed: the empty fatal-error map has the same length as the
empty namespace map, so the all-result-sets-failed check fires. -/
theorem collect_empty_map_up_zero (env : CollectEnv)
    (h1 : (queryVersion env.version).2 = none)
    (h2 : (queryShowLists env.lists).2 = none)
    (h3 : (queryShowConfig env.config).2 = none)
    (h4 : (queryShowServers env.servers).2 = none) :
    (Collect env []).getLast? = some ⟨scrapeSuccessDesc, .gauge, .num 0, []⟩ := by
  have hup : collectUp env [] = 0 := by
    unfold collectUp
    rw [if_pos]
    right; right; right; right; right
    rfl
  simp [Collect, hup]

/-- The concrete all-stages-succeed environment used as a witness. -/
def envAllOk : CollectEnv where
  version := ⟨none, none, ["version"], [.ok (strBytes "PgBouncer 1.24.0")]⟩
  lists := ⟨none, none, ["list", "items"], []⟩
  config := ⟨none, none, ["key", "value", "default", "changeable"], []⟩
  servers := ⟨none, none, List.replicate 19 "c", []⟩
  ns := fun _ => ⟨none, none, [], [], none⟩

/-- C9 witness: the theorem at the concrete all-success environment. -/
theorem collect_empty_map_up_zero_witness :
    (Collect envAllOk []).getLast? = some ⟨scrapeSuccessDesc, .gauge, .num 0, []⟩ :=
  collect_empty_map_up_zero envAllOk rfl rfl rfl rfl

/-! ## Claim C2 -/

/-- C2 counterexample: in a collection cycle where the version, list, config
and connection-state queries all succeed and the fatal-error map of the
generic collections is empty, the liveness sample still has value 0, because
the configured namespace map is empty — refuting the claimed
"1.0 if and only if the four queries succeed and the fatal-error map is
empty". -/
theorem collect_up_iff_counterexample :
    (queryVersion envAllOk.version).2 = none ∧
    (queryShowLists envAllOk.lists).2 = none ∧
    (queryShowConfig envAllOk.config).2 = none ∧
    (queryShowServers envAllOk.servers).2 = none ∧
    (queryNamespaceMappings envAllOk.ns []).2 = [] ∧
    (Collect envAllOk []).getLast? = some ⟨scrapeSuccessDesc, .gauge, .num 0, []⟩ := by
  refine ⟨rfl, rfl, rfl, rfl, rfl, ?_⟩
  have hup : collectUp envAllOk [] = 0 := by
    unfold collectUp
    rw [if_pos]
    right; right; right; right; right
    rfl
  simp [Collect, hup]

/-- C2 (amended): the liveness sample emitted last by `Collect` has value 1
iff the version, list, config and connection-state queries all succeed, the
fatal-error map of the generic collections is empty, and at least one generic
result-set is configured; it is 0 whenever the version query fails, and 0
whenever every configured result-set reported a fatal error (which includes
the vacuous case of an empty namespace map). -/
theorem collect_up_spec (env : CollectEnv) (mm : List (String × MetricMapNamespace)) :
    (collectUp env mm = 1 ↔
      ((queryVersion env.version).2 = none ∧
       (queryShowLists env.lists).2 = none ∧
       (queryShowConfig env.config).2 = none ∧
       (queryShowServers env.servers).2 = none ∧
       (queryNamespaceMappings env.ns mm).2 = [] ∧ mm ≠ [])) ∧
    ((queryVersion env.version).2 ≠ none → collectUp env mm = 0) ∧
    ((queryNamespaceMappings env.ns mm).2.length = mm.length → collectUp env mm = 0) ∧
    (Collect env mm).getLast? = some ⟨scrapeSuccessDesc, .gauge, .num (collectUp env mm), []⟩ := by
  have hiff : ∀ (c : Prop) [Decidable c], ((if c then (0 : ℚ) else 1) = 1 ↔ ¬c) := by
    intro c hc
    split <;> simp_all <;> norm_num
  refine ⟨?_, ?_, ?_, ?_⟩
  · rw [collectUp, hiff]
    rw [not_or, not_or, not_or, not_or, not_or]
    simp only [Option.not_isSome_iff_eq_none, Nat.not_lt, Nat.le_zero,
      List.length_eq_zero]
    constructor
    · rintro ⟨hv, hl, hc, hs, hmap, hlen⟩
      refine ⟨hv, hl, hc, hs, hmap, ?_⟩
      intro hnil
      apply hlen
      rw [hmap, hnil]
      rfl
    · rintro ⟨hv, hl, hc, hs, hmap, hne⟩
      refine ⟨hv, hl, hc, hs, hmap, ?_⟩
      intro hlen
      rw [hmap] at hlen
      exact hne (List.length_eq_zero.mp hlen.symm)
  · intro hv
    rw [collectUp, if_pos]
    left
    exact Option.isSome_iff_ne_none.mpr hv
  · intro hlen
    rw [collectUp, if_pos]
    right; right; right; right; right
    exact hlen
  · simp [Collect]

/-- C2 (amended) witness: the liveness characterization at a concrete
successful cycle with one configured result-set that succeeds. -/
theorem collect_up_spec_witness :
    collectUp
      { envAllOk with ns := fun _ => ⟨none, none, ["x"], [], none⟩ }
      [("stats", ⟨[], []⟩)] = 1 := by
  have h := (collect_up_spec
    { envAllOk with ns := fun _ => ⟨none, none, ["x"], [], none⟩ }
    [("stats", ⟨[], []⟩)]).1
  exact h.mpr ⟨rfl, rfl, rfl, rfl, rfl, by simp⟩

/-! ## Claim C8 -/

/-- A one-gauge-column compiled result-set used by the iteration-order
counterexample (descriptor name prefixed by the result-set it belongs to). -/
def nsMappingA : MetricMapNamespace :=
  ⟨[("x", ⟨false, .gauge, ⟨"pgbouncer_a_x", "h", []⟩, fun i => dbToFloat64 i 1⟩)], []⟩

/-- A second such compiled result-set with a distinct descriptor. -/
def nsMappingB : MetricMapNamespace :=
  ⟨[("x", ⟨false, .gauge, ⟨"pgbouncer_b_x", "h", []⟩, fun i => dbToFloat64 i 1⟩)], []⟩

/-- A cycle environment in which result-sets `a` and `b` each yield one row
with one timestamp-valued column. -/
def envOrder : CollectEnv :=
  { envAllOk with
    ns := fun n =>
      if n = "a" then ⟨none, none, ["x"], [.ok [.timeV 1]], none⟩
      else ⟨none, none, ["x"], [.ok [.timeV 2]], none⟩ }

/-- C8 counterexample: the generic result-sets are iterated in Go map order,
which is not deterministic — two admissible iteration orders of the same
two-entry namespace map (a permutation pair) make `Collect` emit different
sample sequences, refuting "each generic result-set in deterministic
iteration order ... in every execution of Collect". -/
theorem collect_order_counterexample :
    List.Perm [("a", nsMappingA), ("b", nsMappingB)] [("b", nsMappingB), ("a", nsMappingA)] ∧
    Collect envOrder [("a", nsMappingA), ("b", nsMappingB)] ≠
      Collect envOrder [("b", nsMappingB), ("a", nsMappingA)] := by
  constructor
  · exact List.Perm.swap _ _ _
  · intro h
    have e1 : Collect envOrder [("a", nsMappingA), ("b", nsMappingB)] =
        [⟨bouncerVersionDesc, .gauge, .num 1, [strBytes "PgBouncer 1.24.0"]⟩,
         ⟨⟨"pgbouncer_a_x", "h", []⟩, .gauge, .num ((1 : ℤ) : ℚ), []⟩,
         ⟨⟨"pgbouncer_b_x", "h", []⟩, .gauge, .num ((2 : ℤ) : ℚ), []⟩,
         ⟨scrapeSuccessDesc, .gauge, .num 1, []⟩] := rfl
    have e2 : Collect envOrder [("b", nsMappingB), ("a", nsMappingA)] =
        [⟨bouncerVersionDesc, .gauge, .num 1, [strBytes "PgBouncer 1.24.0"]⟩,
         ⟨⟨"pgbouncer_b_x", "h", []⟩, .gauge, .num ((2 : ℤ) : ℚ), []⟩,
         ⟨⟨"pgbouncer_a_x", "h", []⟩, .gauge, .num ((1 : ℤ) : ℚ), []⟩,
         ⟨scrapeSuccessDesc, .gauge, .num 1, []⟩] := rfl
    rw [e1, e2] at h
    simp [Sample.mk.injEq, Desc.mk.injEq] at h

/-- C8 (amended): within one collection cycle samples are emitted in a fixed
stage order — version info, then the list collector's samples, then the
config collector's, then the connection-state collector's, then the generic
result-sets each contiguously in the order the namespace map is iterated
(which is Go map order, not deterministic across executions) — and the
liveness sample is emitted last in every execution. -/
theorem collect_stage_order (env : CollectEnv)
    (mm : List (String × MetricMapNamespace)) :
    Collect env mm =
      (queryVersion env.version).1 ++ (queryShowLists env.lists).1
        ++ (queryShowConfig env.config).1 ++ (queryShowServers env.servers).1
        ++ (mm.map (fun p => (queryNamespaceMapping (env.ns p.1) p.1 p.2).trace)).flatten
        ++ [⟨scrapeSuccessDesc, .gauge, .num (collectUp env mm), []⟩] ∧
    (Collect env mm).getLast? =
      some ⟨scrapeSuccessDesc, .gauge, .num (collectUp env mm), []⟩ := by
  constructor
  · rw [Collect, queryNamespaceMappings_spec]
  · simp [Collect]

/-! ## Claim C3 -/

/-- The row loop returns a fatal error exactly when some row's structural
scan fails. -/
theorem nsRowsLoop_fatal_iff (cols : List String) (m : MetricMapNamespace) (ns : String)
    (rows : List (Except String (List DbValue))) (s : List Sample) (nf : List String) :
    (nsRowsLoop cols m ns rows s nf).fatal ≠ none ↔ ∃ e, Except.error e ∈ rows := by
  induction rows generalizing s nf with
  | nil => simp [nsRowsLoop]
  | cons hd tl ih =>
    cases hd with
    | error e => simp [nsRowsLoop]
    | ok r => simp [nsRowsLoop, ih]

/-- C3: `queryNamespaceMapping` returns a fatal error exactly when the query
itself fails, the column list cannot be read, or some row's structural scan
fails (first conjunct); a value column whose bound coercion fails appends
exactly one non-fatal error and skips only that column, the row's other
value columns still being emitted (second conjunct, for a two-value-column
row whose first coercion fails); and a row-iteration error detected after
the last row is appended to the non-fatal list and never returned as the
fatal error (third conjunct). -/
theorem queryNamespaceMapping_error_taxonomy :
    (∀ (res : NsResult) (ns : String) (m : MetricMapNamespace),
      (queryNamespaceMapping res ns m).fatal ≠ none ↔
        (res.queryErr ≠ none ∨ res.colsErr ≠ none ∨ ∃ e, Except.error e ∈ res.rows)) ∧
    (∀ (ns c1 c2 : String) (mm1 mm2 : MetricMap) (d1 d2 : DbValue),
      c1 ≠ c2 → mm1.discard = false → mm2.discard = false →
      (mm1.conversion d1).2 = false → (mm2.conversion d2).2 = true →
      queryNamespaceMapping ⟨none, none, [c1, c2], [.ok [d1, d2]], none⟩ ns
          ⟨[(c1, mm1), (c2, mm2)], []⟩ =
        ⟨[⟨mm2.desc, mm2.vtype, (mm2.conversion d2).1, []⟩],
         ["unexpected error parsing namespace: " ++ ns ++ ", column: " ++ c1], none⟩) ∧
    (∀ (res : NsResult) (ns : String) (m : MetricMapNamespace) (e : String),
      res.queryErr = none → res.colsErr = none → (∀ e', Except.error e' ∉ res.rows) →
      queryNamespaceMapping { res with iterErr := some e } ns m =
        ⟨(queryNamespaceMapping { res with iterErr := none } ns m).trace,
         (queryNamespaceMapping { res with iterErr := none } ns m).nonfatal
           ++ ["Failed to consume all rows due to: " ++ e],
         none⟩) := by
  refine ⟨?_, ?_, ?_⟩
  · intro res ns m
    rw [queryNamespaceMapping]
    cases hq : res.queryErr with
    | some e => simp [hq]
    | none =>
      cases hc : res.colsErr with
      | some e => simp [hc]
      | none =>
        simp only [hq, hc]
        cases hl : (nsRowsLoop res.columns m ns res.rows [] []).fatal with
        | some e =>
          have := (nsRowsLoop_fatal_iff res.columns m ns res.rows [] []).mp (by rw [hl]; simp)
          simp [hl, this]
        | none =>
          have hnex : ¬ ∃ e, Except.error e ∈ res.rows := by
            intro hex
            exact (nsRowsLoop_fatal_iff res.columns m ns res.rows [] []).mpr hex hl
          cases hi : res.iterErr <;> simp [hl, hi, hnex]
  · intro ns c1 c2 mm1 mm2 d1 d2 hne h1d h2d h1c h2c
    simp [queryNamespaceMapping, nsRowsLoop, resolveLabels, emitValues, List.enum,
      alookup, hne, Ne.symm hne, h1d, h2d, h1c, h2c]
  · intro res ns m e hq hc hrows
    have hfat : (nsRowsLoop res.columns m ns res.rows [] []).fatal = none := by
      by_contra hne
      obtain ⟨e', he'⟩ := (nsRowsLoop_fatal_iff res.columns m ns res.rows [] []).mp hne
      exact hrows e' he'
    simp [queryNamespaceMapping, hq, hc, hfat]

/-- A concrete compiled gauge column bound to scale factor 1 (first value
column of the C3 witness row). -/
def mmStrCol : MetricMap :=
  ⟨false, .gauge, ⟨"pgbouncer_stats_a", "h", []⟩, fun i => dbToFloat64 i 1⟩

/-- A second concrete compiled gauge column (second value column of the C3
witness row). -/
def mmTimeCol : MetricMap :=
  ⟨false, .gauge, ⟨"pgbouncer_stats_b", "h", []⟩, fun i => dbToFloat64 i 1⟩

/-- C3 witness: the three conjuncts at concrete inputs — a scan-failing row
is fatal; a row whose first value column fails coercion yields one non-fatal
error and still emits the second column's sample; a row-iteration error is
appended non-fatally. -/
theorem queryNamespaceMapping_error_taxonomy_witness :
    (queryNamespaceMapping ⟨none, none, ["x"], [.error "boom"], none⟩ "stats"
        ⟨[], []⟩).fatal ≠ none ∧
    queryNamespaceMapping
        ⟨none, none, ["a", "b"], [.ok [.strV (strBytes "md5"), .timeV 7]], none⟩ "stats"
        ⟨[("a", mmStrCol), ("b", mmTimeCol)], []⟩ =
      ⟨[⟨mmTimeCol.desc, mmTimeCol.vtype, (mmTimeCol.conversion (.timeV 7)).1, []⟩],
       ["unexpected error parsing namespace: stats, column: a"], none⟩ ∧
    queryNamespaceMapping ⟨none, none, ["x"], [], some "eof"⟩ "stats" ⟨[], []⟩ =
      ⟨[], ["Failed to consume all rows due to: eof"], none⟩ := by
  refine ⟨?_, ?_, ?_⟩
  · exact (queryNamespaceMapping_error_taxonomy.1 _ _ _).mpr
      (Or.inr (Or.inr ⟨"boom", by simp⟩))
  · exact queryNamespaceMapping_error_taxonomy.2.1 "stats" "a" "b" mmStrCol mmTimeCol
      (.strV (strBytes "md5")) (.timeV 7) (by decide) rfl rfl rfl rfl
  · exact queryNamespaceMapping_error_taxonomy.2.2
      ⟨none, none, ["x"], [], none⟩ "stats" ⟨[], []⟩ "eof" rfl rfl (by simp)

/-! ## Claim C4 -/

/-- C4: a label column whose resolved string is not valid UTF-8 is replaced
by the fixed `"<invalid>"` sentinel, generates exactly one non-fatal error,
and never aborts the row: the row's value samples are still emitted, carrying
the sentinel in that label position, and the collection reports no fatal
error. -/
theorem label_invalid_utf8_sentinel (ns lc vc : String) (mm : MetricMap)
    (bs : GoStr) (d : DbValue)
    (hne : lc ≠ vc) (hd : mm.discard = false) (hu : utf8Valid bs = false)
    (hc : (mm.conversion d).2 = true) :
    queryNamespaceMapping ⟨none, none, [lc, vc], [.ok [.strV bs, d]], none⟩ ns
        ⟨[(vc, mm)], [lc]⟩ =
      ⟨[⟨mm.desc, mm.vtype, (mm.conversion d).1, [strBytes "<invalid>"]⟩],
       ["column " ++ lc ++ " in " ++ ns ++ " has an invalid UTF-8 for a label"],
       none⟩ := by
  simp [queryNamespaceMapping, nsRowsLoop, resolveLabels, resolveOneLabel, labelCell,
    emitValues, List.enum, alookup, hne, Ne.symm hne, hd, hu, hc]

/-- C4 witness: a one-byte invalid-UTF-8 label value (`0xFF`) next to a
timestamp value column. -/
theorem label_invalid_utf8_sentinel_witness :
    queryNamespaceMapping ⟨none, none, ["a", "b"], [.ok [.strV [0xFF], .timeV 7]], none⟩
        "pools" ⟨[("b", mmTimeCol)], ["a"]⟩ =
      ⟨[⟨mmTimeCol.desc, mmTimeCol.vtype, (mmTimeCol.conversion (.timeV 7)).1,
         [strBytes "<invalid>"]⟩],
       ["column a in pools has an invalid UTF-8 for a label"], none⟩ :=
  label_invalid_utf8_sentinel "pools" "a" "b" mmTimeCol [0xFF] (.timeV 7)
    (by decide) rfl (by decide) rfl

/-! ## Claim C5 -/

/-- Looking a key up after a key-preserving map transformation. -/
theorem alookup_map_keyed {β γ : Type} (g : String → β → γ) (l : List (String × β))
    (k : String) :
    alookup k (l.map (fun p => (p.1, g p.1 p.2))) = (alookup k l).map (g k) := by
  induction l with
  | nil => rfl
  | cons hd tl ih =>
    by_cases h : hd.1 = k
    · subst h
      simp [alookup]
    · simp [alookup, h, ih]

/-- A successful lookup is a member. -/
theorem alookup_mem {β : Type} {l : List (String × β)} {k : String} {v : β}
    (h : alookup k l = some v) : (k, v) ∈ l := by
  induction l with
  | nil => simp [alookup] at h
  | cons hd tl ih =>
    rw [alookup] at h
    by_cases hk : hd.1 = k
    · rw [if_pos hk] at h
      have hv : hd.2 = v := Option.some.inj h
      subst hv
      subst hk
      exact List.mem_cons_self hd tl
    · rw [if_neg hk] at h
      exact List.mem_cons_of_mem _ (ih h)

/-- With no-duplicate keys, every entry carrying the looked-up key carries
the looked-up value. -/
theorem alookup_unique {β : Type} {l : List (String × β)} {k : String} {v : β}
    (hnd : (l.map Prod.fst).Nodup) (h : alookup k l = some v) :
    ∀ q ∈ l, q.1 = k → q.2 = v := by
  induction l with
  | nil => simp
  | cons hd tl ih =>
    simp only [List.map_cons, List.nodup_cons] at hnd
    rw [alookup] at h
    intro q hq hqk
    by_cases hk : hd.1 = k
    · rw [if_pos hk] at h
      have hv : hd.2 = v := Option.some.inj h
      subst hv
      rcases List.mem_cons.mp hq with hq | hq
      · rw [hq]
      · exfalso
        apply hnd.1
        have : q.1 ∈ tl.map Prod.fst := List.mem_map_of_mem Prod.fst hq
        rw [hqk, ← hk] at this
        exact this
    · rw [if_neg hk] at h
      rcases List.mem_cons.mp hq with hq | hq
      · exact absurd (hq ▸ hqk : hd.1 = k) hk
      · exact ih hnd.2 h q hq hqk

/-- If a key-preserving partial transformation drops every entry with the
given key, the key is absent from the transformed list. -/
theorem alookup_filterMap_none {β γ : Type} (f : String × β → Option (String × γ))
    (hkey : ∀ q r, f q = some r → r.1 = q.1) (l : List (String × β)) (k : String)
    (h : ∀ q ∈ l, q.1 = k → f q = none) :
    alookup k (l.filterMap f) = none := by
  induction l with
  | nil => rfl
  | cons hd tl ih =>
    rw [List.filterMap_cons]
    cases hf : f hd with
    | none => exact ih (fun q hq => h q (List.mem_cons_of_mem _ hq))
    | some r =>
      rw [alookup]
      have hrk : r.1 ≠ k := by
        intro hrk
        have : hd.1 = k := (hkey hd r hf) ▸ hrk
        rw [h hd (List.mem_cons_self _ _) this] at hf
        cases hf
      rw [if_neg hrk]
      exact ih (fun q hq => h q (List.mem_cons_of_mem _ hq))

/-- A sample's descriptor and value kind come from some compiled column of
the mapping it was produced under. -/
def descOk (m : MetricMapNamespace) (s : Sample) : Prop :=
  ∃ p ∈ m.columnMappings, s.desc = p.2.desc ∧ s.vtype = p.2.vtype

/-- Every sample produced by the value loop is described by a compiled
column of the mapping. -/
theorem emitValues_descOk (m : MetricMapNamespace) (ns : String)
    (rowData : List DbValue) (lv : List GoStr) (ps : List (Nat × String))
    (acc : List Sample × List String) (hacc : ∀ s ∈ acc.1, descOk m s) :
    ∀ s ∈ (ps.foldl
      (fun acc p =>
        match alookup p.2 m.columnMappings with
        | some mm =>
          if mm.discard then acc
          else
            let r := mm.conversion (rowData.getD p.1 .nullV)
            if r.2 then
              (acc.1 ++ [⟨mm.desc, mm.vtype, r.1, lv⟩], acc.2)
            else
              (acc.1, acc.2 ++ ["unexpected error parsing namespace: " ++ ns ++ ", column: " ++ p.2])
        | none => acc) acc).1, descOk m s := by
  induction ps generalizing acc with
  | nil => exact hacc
  | cons hd tl ih =>
    rw [List.foldl_cons]
    cases hl : alookup hd.2 m.columnMappings with
    | none => exact ih acc hacc
    | some mm =>
      by_cases hdis : mm.discard
      · simp only [hl, hdis, if_true]
        exact ih acc hacc
      · by_cases hok : (mm.conversion (rowData.getD hd.1 .nullV)).2
        · simp only [hl, hdis, if_false, hok, if_true]
          refine ih _ ?_
          intro s hs
          rcases List.mem_append.mp hs with hs | hs
          · exact hacc s hs
          · rcases List.mem_singleton.mp hs with rfl
            exact ⟨(hd.2, mm), alookup_mem hl, rfl, rfl⟩
        · simp only [hl, hdis, if_false, hok]
          exact ih _ hacc

/-- Membership form of `emitValues_descOk` for the collector's value loop. -/
theorem emitValues_descOk_main (cols : List String) (m : MetricMapNamespace)
    (rowData : List DbValue) (lv : List GoStr) (ns : String) :
    ∀ s ∈ (emitValues cols m rowData lv ns).1, descOk m s := by
  exact emitValues_descOk m ns rowData lv cols.enum ([], []) (by simp)

/-- Every sample in the row loop's trace is described by a compiled column. -/
theorem nsRowsLoop_descOk (cols : List String) (m : MetricMapNamespace) (ns : String)
    (rows : List (Except String (List DbValue))) (samples : List Sample)
    (nf : List String) (hacc : ∀ s ∈ samples, descOk m s) :
    ∀ s ∈ (nsRowsLoop cols m ns rows samples nf).trace, descOk m s := by
  induction rows generalizing samples nf with
  | nil => exact hacc
  | cons hd tl ih =>
    cases hd with
    | error e => exact hacc
    | ok r =>
      rw [nsRowsLoop]
      refine ih _ _ ?_
      intro s hs
      rcases List.mem_append.mp hs with hs | hs
      · exact hacc s hs
      · exact emitValues_descOk_main cols m r _ ns s hs

/-- Every sample emitted by one generic result-set collection is described
by a compiled column of its mapping. -/
theorem queryNamespaceMapping_descOk (res : NsResult) (ns : String)
    (m : MetricMapNamespace) :
    ∀ s ∈ (queryNamespaceMapping res ns m).trace, descOk m s := by
  rw [queryNamespaceMapping]
  cases res.queryErr with
  | some e => simp
  | none =>
    cases res.colsErr with
    | some e => simp
    | none =>
      have hloop := nsRowsLoop_descOk res.columns m ns res.rows [] [] (by simp)
      cases hfat : (nsRowsLoop res.columns m ns res.rows [] []).fatal with
      | some e => simpa [hfat] using hloop
      | none => cases hit : res.iterErr <;> simpa [hfat, hit] using hloop

/-- C5: a registry entry whose `minVersion` exceeds the probed version is
excluded entirely from the compiled descriptor map of its result-set — it
appears neither among the result-set's label names nor among its column
descriptors — and, since every sample emitted by the generic collector is
described by some compiled column, no sample is ever emitted for it. -/
theorem makeDescMapVersioned_gates
    (maps : List (String × List (String × ColumnMapping))) (ns : String)
    (cur : Version) (rs col : String) (cm : ColumnMapping)
    (mappings : List (String × ColumnMapping)) (compiledNs : MetricMapNamespace)
    (hrs : alookup rs maps = some mappings)
    (hnd : (mappings.map Prod.fst).Nodup)
    (hcol : alookup col mappings = some cm)
    (hgate : Version.lt cur cm.minVersion)
    (hcompiled : alookup rs (makeDescMapVersioned maps ns cur) = some compiledNs) :
    col ∉ compiledNs.labels ∧
    alookup col compiledNs.columnMappings = none ∧
    ∀ (res : NsResult) (ns' : String),
      ∀ s ∈ (queryNamespaceMapping res ns' compiledNs).trace, descOk compiledNs s := by
  have hng : ¬ Version.ge cur cm.minVersion := fun hge => hge hgate
  have hcomp : compiledNs = compileNsVersioned ns rs cur mappings := by
    rw [makeDescMapVersioned,
      alookup_map_keyed (fun k v => compileNsVersioned ns k cur v) maps rs, hrs] at hcompiled
    exact (Option.some.inj hcompiled).symm
  subst hcomp
  refine ⟨?_, ?_, ?_⟩
  · intro hmem
    rw [compileNsVersioned] at hmem
    simp only [List.mem_map, List.mem_filter] at hmem
    obtain ⟨q, ⟨hqmem, hqp⟩, hqcol⟩ := hmem
    have hq2 : q.2 = cm := alookup_unique hnd hcol q hqmem hqcol
    have := of_decide_eq_true hqp
    rw [hq2] at this
    exact hng this.2
  · rw [compileNsVersioned]
    apply alookup_filterMap_none
    · intro q r hf
      dsimp only at hf
      split at hf
      · split at hf
        · exact (congrArg Prod.fst (Option.some.inj hf)).symm
        · exact (congrArg Prod.fst (Option.some.inj hf)).symm
        · cases hf
      · cases hf
    · intro q hq hqcol
      have hq2 : q.2 = cm := alookup_unique hnd hcol q hq hqcol
      simp only [hq2, hng, if_false]
  · intro res ns' s hs
    exact queryNamespaceMapping_descOk res ns' _ s hs

/-- The registry of the version-gating test (`TestMakeDescMap`): entries
whose `minVersion` straddles the probed version 1.20.1. -/
def gatedTestMaps : List (String × List (String × ColumnMapping)) :=
  [("database",
    [("name", ⟨.LABEL, "N/A", 1, "N/A", ⟨0, 0, 0⟩⟩),
     ("host", ⟨.LABEL, "N/A", 1, "N/A", ⟨1, 21, 0⟩⟩),
     ("port", ⟨.LABEL, "N/A", 1, "N/A", ⟨1, 9, 0⟩⟩),
     ("pool_size", ⟨.GAUGE, "pool_size", 1, "Maximum number of server connections", ⟨1, 22, 0⟩⟩),
     ("reserve_pool", ⟨.GAUGE, "reserve_pool", 1, "Maximum number of additional connections for this database", ⟨0, 0, 0⟩⟩),
     ("current_connections", ⟨.GAUGE, "current_connections", 1/1000000, "Current number of connections for this database", ⟨1, 7, 0⟩⟩),
     ("total_query_count", ⟨.COUNTER, "queries_pooled_total", 1, "Total number of SQL queries pooled", ⟨0, 0, 0⟩⟩)])]

/-- C5 witness: compiling the test registry at version 1.20.1 excludes the
`pool_size` column (minimum version 1.22.0) from both the labels and the
column descriptors of its result-set. -/
theorem makeDescMapVersioned_gates_witness :
    ∃ compiledNs, alookup "database" (makeDescMapVersioned gatedTestMaps "foo" ⟨1, 20, 1⟩)
        = some compiledNs ∧
      "pool_size" ∉ compiledNs.labels ∧
      alookup "pool_size" compiledNs.columnMappings = none := by
  refine ⟨compileNsVersioned "foo" "database" ⟨1, 20, 1⟩
    (gatedTestMaps.head (by simp [gatedTestMaps])).2, rfl, ?_⟩
  have h := makeDescMapVersioned_gates gatedTestMaps "foo" ⟨1, 20, 1⟩ "database" "pool_size"
    ⟨.GAUGE, "pool_size", 1, "Maximum number of server connections", ⟨1, 22, 0⟩⟩
    (gatedTestMaps.head (by simp [gatedTestMaps])).2 _
    rfl (by decide) rfl (by decide) rfl
  exact ⟨h.1, h.2.1⟩

/-! ## Claim C7 -/

/-- A config sample is described by an allow-list entry and is a gauge. -/
def configDescOk (s : Sample) : Prop :=
  ∃ p ∈ configMap, s.desc = p.2 ∧ s.vtype = .gauge

/-- Every sample the config row loop adds is described by an allow-list
entry. -/
theorem configRowsLoop_descOk (nc : Nat) (rows : List (Except String ConfigRow))
    (acc : List Sample) (hacc : ∀ s ∈ acc, configDescOk s) :
    ∀ s ∈ (configRowsLoop nc rows acc).1, configDescOk s := by
  induction rows generalizing acc with
  | nil => exact hacc
  | cons hd tl ih =>
    simp only [configRowsLoop]
    by_cases hnc : nc = 3 ∨ nc = 4
    · rw [if_pos hnc]
      cases hd with
      | error e => exact hacc
      | ok r =>
        dsimp only
        by_cases hexp : exposedConfig r.key
        · rw [if_pos hexp]
          cases hp : goParseFloat r.value with
          | none => exact hacc
          | some v =>
            cases hcf : configFind r.key with
            | none => exact ih acc hacc
            | some metric =>
              refine ih _ ?_
              intro s hs
              rcases List.mem_append.mp hs with hs | hs
              · exact hacc s hs
              · rcases List.mem_singleton.mp hs with rfl
                rw [configFind] at hcf
                cases hfind : configMap.find? (fun p => strBytes p.1 = r.key) with
                | none => rw [hfind] at hcf; cases hcf
                | some p =>
                  rw [hfind] at hcf
                  refine ⟨p, List.mem_of_find?_eq_some hfind, ?_, rfl⟩
                  exact (Option.some.inj hcf).symm
        · rw [if_neg hexp]
          exact ih acc hacc
    · rw [if_neg hnc]
      exact hacc

/-- The 4-column `SHOW CONFIG` environment of end-to-end scenario B. -/
def envConfigB : ConfigEnv :=
  ⟨none, none, ["key", "value", "default", "changeable"],
   [.ok ⟨strBytes "max_client_conn", strBytes "1900"⟩,
    .ok ⟨strBytes "auth_type", strBytes "md5"⟩]⟩

/-- C7: `queryShowConfig` emits gauge samples only for allow-listed keys
(first conjunct, over every environment); and on the 4-column scenario-B
result it emits exactly one gauge of value 1900 for `max_client_conn` and no
sample and no error for the non-allow-listed `auth_type`, whose value is
never parsed (second conjunct). -/
theorem queryShowConfig_allowlist :
    (∀ env : ConfigEnv, ∀ s ∈ (queryShowConfig env).1, configDescOk s) ∧
    queryShowConfig envConfigB =
      ([⟨⟨"pgbouncer_config_max_client_connections",
          "Config maximum number of client connections", []⟩, .gauge, .num 1900, []⟩],
       none) := by
  constructor
  · intro env
    rw [queryShowConfig]
    cases env.queryErr with
    | some e => simp
    | none =>
      cases env.colsErr with
      | some e => simp
      | none => exact configRowsLoop_descOk env.columns.length env.rows [] (by simp)
  · have hp1 : goParseFloat (strBytes "1900") = some 1900 := by
      rw [show strBytes "1900" = [0x31, 0x39, 0x30, 0x30] from rfl]
      norm_num [goParseFloat, stripSign, digitsToNat, isDigit]
    have hex1 : exposedConfig (strBytes "max_client_conn") = true := by decide
    have hex2 : exposedConfig (strBytes "auth_type") = false := by decide
    have hcf : configFind (strBytes "max_client_conn") =
        some ⟨"pgbouncer_config_max_client_connections",
          "Config maximum number of client connections", []⟩ := by decide
    simp [queryShowConfig, envConfigB, configRowsLoop, hex1, hex2, hp1, hcf]

/-- C7 witness: the first conjunct applied to the scenario-B environment and
its emitted sample. -/
theorem queryShowConfig_allowlist_witness :
    configDescOk ⟨⟨"pgbouncer_config_max_client_connections",
      "Config maximum number of client connections", []⟩, .gauge, .num 1900, []⟩ := by
  apply queryShowConfig_allowlist.1 envConfigB
  rw [show (queryShowConfig envConfigB).1 =
    [⟨⟨"pgbouncer_config_max_client_connections",
       "Config maximum number of client connections", []⟩, .gauge, .num 1900, []⟩]
    from congrArg Prod.fst queryShowConfig_allowlist.2]
  exact List.mem_singleton.mpr rfl

/-! ## Claim C6 -/

/-- Tally lookup (a read of the Go `counters` map). -/
def tlookup (k : ServerKey) : List (ServerKey × Nat) → Option Nat
  | [] => none
  | (k', n) :: t => if k' = k then some n else tlookup k t

/-- Incrementing a key updates exactly its own tally. -/
theorem tlookup_bump_self (c : List (ServerKey × Nat)) (k : ServerKey) :
    tlookup k (bump c k) = some ((tlookup k c).getD 0 + 1) := by
  induction c with
  | nil => simp [bump, tlookup]
  | cons hd tl ih =>
    obtain ⟨k', n⟩ := hd
    by_cases h : k' = k
    · simp [bump, tlookup, h]
    · simp [bump, tlookup, h, ih]

/-- Incrementing a key leaves every other tally unchanged. -/
theorem tlookup_bump_other (c : List (ServerKey × Nat)) (k k' : ServerKey)
    (hne : k' ≠ k) : tlookup k' (bump c k) = tlookup k' c := by
  induction c with
  | nil => simp [bump, tlookup, Ne.symm hne]
  | cons hd tl ih =>
    obtain ⟨k'', n⟩ := hd
    by_cases h : k'' = k
    · subst h
      simp [bump, tlookup, Ne.symm hne]
    · by_cases h2 : k'' = k' <;> simp [bump, tlookup, h, h2, ih, hne]

/-- A key is absent from the tally iff its lookup is `none`. -/
theorem tlookup_eq_none_iff (c : List (ServerKey × Nat)) (k : ServerKey) :
    tlookup k c = none ↔ k ∉ c.map Prod.fst := by
  induction c with
  | nil => simp [tlookup]
  | cons hd tl ih =>
    obtain ⟨k', n⟩ := hd
    by_cases h : k' = k
    · simp [tlookup, h, ih]
    · simp [tlookup, h, ih, Ne.symm h]

/-- With no-duplicate keys, pair membership agrees with lookup. -/
theorem mem_iff_tlookup (c : List (ServerKey × Nat)) (k : ServerKey) (n : Nat)
    (hnd : (c.map Prod.fst).Nodup) : (k, n) ∈ c ↔ tlookup k c = some n := by
  induction c with
  | nil => simp [tlookup]
  | cons hd tl ih =>
    obtain ⟨k', m⟩ := hd
    simp only [List.map_cons, List.nodup_cons] at hnd
    by_cases h : k' = k
    · subst h
      simp only [tlookup, if_pos rfl, List.mem_cons]
      constructor
      · rintro (heq | hmem)
        · cases heq
          rfl
        · exact absurd (List.mem_map_of_mem Prod.fst hmem) hnd.1
      · intro hv
        left
        rw [Option.some.inj hv]
    · simp only [tlookup, if_neg h, List.mem_cons]
      rw [← ih hnd.2]
      constructor
      · rintro (heq | hmem)
        · cases heq
          exact absurd rfl h
        · exact hmem
      · exact fun hmem => Or.inr hmem

/-- Membership in the bumped key set. -/
theorem mem_keys_bump (c : List (ServerKey × Nat)) (k k' : ServerKey) :
    k' ∈ (bump c k).map Prod.fst ↔ k' ∈ c.map Prod.fst ∨ k' = k := by
  induction c with
  | nil => simp [bump]
  | cons hd tl ih =>
    obtain ⟨k'', n⟩ := hd
    by_cases h : k'' = k
    · subst h
      simp only [bump, if_pos rfl, List.map_cons]
      constructor
      · rintro hmem
        rcases List.mem_cons.mp hmem with hmem | hmem
        · exact Or.inl (List.mem_cons.mpr (Or.inl hmem))
        · exact Or.inl (List.mem_cons.mpr (Or.inr hmem))
      · rintro (hmem | rfl)
        · exact hmem
        · exact List.mem_cons_self _ _
    · simp only [bump, if_neg h, List.map_cons, List.mem_cons, ih]
      tauto

/-- Bumping preserves key distinctness. -/
theorem nodup_keys_bump (c : List (ServerKey × Nat)) (k : ServerKey)
    (hnd : (c.map Prod.fst).Nodup) : ((bump c k).map Prod.fst).Nodup := by
  induction c with
  | nil => simp [bump]
  | cons hd tl ih =>
    obtain ⟨k', n⟩ := hd
    simp only [List.map_cons, List.nodup_cons] at hnd
    by_cases h : k' = k
    · simp only [bump, if_pos h, List.map_cons, List.nodup_cons]
      exact ⟨hnd.1, hnd.2⟩
    · simp only [bump, if_neg h, List.map_cons, List.nodup_cons]
      refine ⟨?_, ih hnd.2⟩
      intro hmem
      rcases (mem_keys_bump tl k k').mp hmem with hmem | rfl
      · exact hnd.1 hmem
      · exact h rfl

/-- The fold of `bump` computes occurrence counts on top of the initial
tally. -/
theorem foldl_bump_tlookup (l : List ServerKey) (c : List (ServerKey × Nat))
    (k : ServerKey) :
    tlookup k (l.foldl bump c) =
      match tlookup k c with
      | some m => some (m + l.count k)
      | none => if l.count k = 0 then none else some (l.count k) := by
  induction l generalizing c with
  | nil =>
    cases h : tlookup k c <;> simp [h]
  | cons a l' ih =>
    rw [List.foldl_cons, ih (bump c a)]
    by_cases hak : a = k
    · subst hak
      rw [tlookup_bump_self]
      cases h : tlookup a c with
      | some m => simp [h, List.count_cons_self]; omega
      | none => simp [h, List.count_cons_self]; omega
    · rw [tlookup_bump_other c a k (Ne.symm hak)]
      cases h : tlookup k c with
      | some m => simp [List.count_cons_of_ne (Ne.symm hak)]
      | none => simp [List.count_cons_of_ne (Ne.symm hak)]

/-- The tally of a key list assigns every present key its occurrence count. -/
theorem tally_tlookup (l : List ServerKey) (k : ServerKey) :
    tlookup k (tally l) = if l.count k = 0 then none else some (l.count k) := by
  rw [tally, foldl_bump_tlookup]
  rfl

/-- The tally's key set is duplicate-free. -/
theorem tally_nodup (l : List ServerKey) : ((tally l).map Prod.fst).Nodup := by
  rw [tally]
  have h : ∀ (l' : List ServerKey) (c : List (ServerKey × Nat)),
      (c.map Prod.fst).Nodup → ((l'.foldl bump c).map Prod.fst).Nodup := by
    intro l'
    induction l' with
    | nil => exact fun c h => h
    | cons a t ih => exact fun c h => ih (bump c a) (nodup_keys_bump c a h)
  exact h l [] (by simp)

/-- The tally's keys are exactly the distinct row keys. -/
theorem tally_keys_mem (l : List ServerKey) (k : ServerKey) :
    k ∈ (tally l).map Prod.fst ↔ k ∈ l := by
  rw [← not_iff_not, ← tlookup_eq_none_iff, tally_tlookup]
  by_cases h : l.count k = 0
  · simp [h, List.count_eq_zero.mp h]
  · simp only [h, if_false]
    constructor
    · intro hsome
      cases hsome
    · intro hmem
      exact absurd (List.count_eq_zero.mpr hmem) h

/-- Row loop of `queryShowServers` on well-scanned rows with a recognized
column count: it is exactly the `bump`-fold of the row keys. -/
theorem serversRowsLoop_ok (nc : Nat) (hnc : nc = 20 ∨ nc = 19)
    (rows' : List ServerKey) (cur : ServerKey) (counters : List (ServerKey × Nat)) :
    serversRowsLoop nc (rows'.map Except.ok) cur counters =
      (rows'.foldl bump counters, none) := by
  induction rows' generalizing cur counters with
  | nil => rfl
  | cons a t ih =>
    simp only [List.map_cons, serversRowsLoop, if_pos hnc, List.foldl_cons]
    exact ih a (bump counters a)

/-- C6: `queryShowServers` groups the connection rows by the composite key
and, only after consuming all rows, emits exactly one gauge sample per
distinct group — the emitted trace is the image under `serverSample` of a
tally whose key set is duplicate-free and equal to the set of row keys, and
whose entry for each key is the number of rows carrying that key. -/
theorem queryShowServers_grouping (env : ServersEnv) (rows' : List ServerKey)
    (hq : env.queryErr = none) (hc : env.colsErr = none)
    (hcols : env.columns.length = 19 ∨ env.columns.length = 20)
    (hrows : env.rows = rows'.map Except.ok) :
    queryShowServers env = ((tally rows').map serverSample, none) ∧
    ((tally rows').map Prod.fst).Nodup ∧
    (∀ k, k ∈ (tally rows').map Prod.fst ↔ k ∈ rows') ∧
    (∀ k n, (k, n) ∈ tally rows' → n = rows'.count k) := by
  refine ⟨?_, tally_nodup rows', tally_keys_mem rows', ?_⟩
  · rw [queryShowServers, hq, hc, hrows,
      serversRowsLoop_ok env.columns.length (Or.symm hcols) rows' zeroServerKey []]
    rfl
  · intro k n hmem
    have hl := (mem_iff_tlookup (tally rows') k n (tally_nodup rows')).mp hmem
    rw [tally_tlookup] at hl
    by_cases h : rows'.count k = 0
    · rw [if_pos h] at hl
      cases hl
    · rw [if_neg h] at hl
      exact (Option.some.inj hl).symm

/-- The repeated connection row of end-to-end scenario D. -/
def serverKeyD : ServerKey :=
  ⟨strBytes "u", strBytes "db", strBytes "active", strBytes "1.2.3.4", 5432, 0⟩

/-- The scenario-D environment: a 19-column listing with two identical
rows. -/
def envServersD : ServersEnv :=
  ⟨none, none, List.replicate 19 "c", [.ok serverKeyD, .ok serverKeyD]⟩

/-- C6 witness, end-to-end scenario D: two rows sharing the same composite
key yield exactly one aggregated sample of count 2 — the trace is the image
of the one-entry tally `[(key, 2)]`, not two samples of count 1. -/
theorem queryShowServers_grouping_witness :
    queryShowServers envServersD = ((tally [serverKeyD, serverKeyD]).map serverSample, none) ∧
    tally [serverKeyD, serverKeyD] = [(serverKeyD, 2)] ∧
    (2 : Nat) = [serverKeyD, serverKeyD].count serverKeyD := by
  have h := queryShowServers_grouping envServersD [serverKeyD, serverKeyD]
    rfl rfl (Or.inl (by simp [envServersD])) rfl
  refine ⟨h.1, by decide, ?_⟩
  exact h.2.2.2 serverKeyD 2 (by decide)

/-! ## Claim C10 -/

/-- The sample a well-parsed `SHOW LISTS` row yields: `none` when the name
is unrecognized (row silently dropped). -/
def listSample (row : GoStr × GoStr) : Option Sample :=
  match goParseFloat row.2 with
  | some v => (listsFind row.1).map (fun d => ⟨d, .gauge, .num v, []⟩)
  | none => none

/-- The list row loop on a run of parse-clean rows followed by a row with
unparseable value text: the clean rows' samples are emitted, then the bad
row aborts with a fatal parse error before its name is ever checked, and the
remaining rows are not processed. -/
theorem listsRowsLoop_parse_first (pre : List (GoStr × GoStr))
    (hpre : ∀ p ∈ pre, (goParseFloat p.2).isSome)
    (name bad : GoStr) (hbad : goParseFloat bad = none)
    (post : List (Except String (GoStr × GoStr))) (s : List Sample) :
    listsRowsLoop (pre.map .ok ++ [.ok (name, bad)] ++ post) s =
      (s ++ pre.filterMap listSample,
       some ("error parsing SHOW LISTS column: " ++ toString name)) := by
  induction pre generalizing s with
  | nil => simp [listsRowsLoop, hbad]
  | cons p t ih =>
    obtain ⟨v, hv⟩ := Option.isSome_iff_exists.mp (hpre p (List.mem_cons_self p t))
    have hrest : ∀ q ∈ t, (goParseFloat q.2).isSome :=
      fun q hq => hpre q (List.mem_cons_of_mem p hq)
    simp only [List.map_cons, List.cons_append, listsRowsLoop, hv, List.filterMap_cons,
      listSample]
    have ih' := ih hrest
    simp only [List.append_assoc, List.singleton_append] at ih'
    cases hf : listsFind p.1 with
    | some metric =>
      simp only [hf, List.append_eq, List.append_assoc, List.singleton_append]
      rw [ih']
      simp
    | none =>
      simp only [hf, List.append_eq, List.append_assoc, List.singleton_append]
      rw [ih']
      simp

/-- C10: `queryShowLists` parses every row's value before checking the row's
name against the list-key map, so a row with unparseable value text — even
one whose unrecognized name would otherwise have been silently dropped —
returns a fatal error that aborts the remaining rows, while the samples of
the rows before it remain emitted. -/
theorem queryShowLists_parse_first (cols : List String) (hcols : cols.length = 2)
    (pre : List (GoStr × GoStr)) (hpre : ∀ p ∈ pre, (goParseFloat p.2).isSome)
    (name bad : GoStr) (hbad : goParseFloat bad = none)
    (post : List (Except String (GoStr × GoStr))) :
    queryShowLists ⟨none, none, cols, pre.map .ok ++ [.ok (name, bad)] ++ post⟩ =
      (pre.filterMap listSample,
       some ("error parsing SHOW LISTS column: " ++ toString name)) := by
  rw [queryShowLists]
  simp only [Option.isSome_none, hcols]
  rw [if_neg (by simp)]
  exact listsRowsLoop_parse_first pre hpre name bad hbad post []

/-- C10 witness: one recognized, parse-clean row, then a row with an
unrecognized name and non-numeric value: the first row's gauge is emitted
and the collection ends with the fatal parse error. -/
theorem queryShowLists_parse_first_witness :
    queryShowLists ⟨none, none, ["list", "items"],
        [.ok (strBytes "databases", strBytes "10"),
         .ok (strBytes "bogus", strBytes "oops")]⟩ =
      ([(strBytes "databases", strBytes "10")].filterMap listSample,
       some ("error parsing SHOW LISTS column: " ++ toString (strBytes "bogus"))) := by
  exact queryShowLists_parse_first ["list", "items"] rfl
    [(strBytes "databases", strBytes "10")] (by decide)
    (strBytes "bogus") (strBytes "oops") (by decide)
    []

end PgbExporter
